import Mathlib

/-!
Verification development for the tetrahedral-mesh distortion script
(scripts/distortion.py).

The script computes per-tetrahedron distortion energies (conformal AMIPS and
symmetric Dirichlet), finiteness flags, quantized orientations, shape-quality
measures (radius ratio, min/max dihedral angle), and optionally exports all of
them to a CSV table.

Modelling choices:
* Floating-point scalars are modelled by the type `V`: an exact rational
  payload plus the IEEE special values +inf, -inf and NaN, with IEEE-style
  non-trapping addition, multiplication and division (`vadd`, `vmul`, `vdiv`).
  Quantities that the script only ever produces as ordinary finite floats
  (vertex coordinates, Jacobians, determinants, raw orientations, geometric
  primitives) are carried as plain rationals.
* `np.cbrt` is kept as an explicit function parameter `cbrt : Q -> Q`: no
  claim depends on the numeric value of a cube root, only on how its result is
  fed into the non-trapping division.
* The geometry back-end (pymesh) is an external collaborator: the constant
  gradient operator `G` is a parameter, and the per-voxel geometric primitive
  arrays (inradius, circumradius, dihedral angles, edge ratios, raw signed
  orientations) are fields of the `Mesh` record, exactly the quantities the
  provider contract of the spec supplies.
* The mesh attribute store is an association list `AttrStore`; file output of
  the CSV writer is modelled as the list of rows written, in order, paired with
  the error (if any) that aborted the export, so that partial output remains
  observable.
-/

/-- IEEE-style scalar: finite rational, +infinity, -infinity, or NaN. -/
inductive V where
  | fin : ℚ → V
  | pinf : V
  | ninf : V
  | nan : V
deriving DecidableEq, Repr

/-- `np.isfinite`: true exactly on finite values. -/
def isfiniteV : V → Bool
  | V.fin _ => true
  | _ => false

/-- IEEE non-trapping addition. -/
def vadd : V → V → V
  | V.nan, _ => V.nan
  | _, V.nan => V.nan
  | V.pinf, V.ninf => V.nan
  | V.ninf, V.pinf => V.nan
  | V.pinf, _ => V.pinf
  | _, V.pinf => V.pinf
  | V.ninf, _ => V.ninf
  | _, V.ninf => V.ninf
  | V.fin a, V.fin b => V.fin (a + b)

/-- IEEE non-trapping multiplication (`inf * 0 = NaN`). -/
def vmul : V → V → V
  | V.nan, _ => V.nan
  | _, V.nan => V.nan
  | V.fin a, V.fin b => V.fin (a * b)
  | V.fin a, V.pinf => if 0 < a then V.pinf else if a < 0 then V.ninf else V.nan
  | V.fin a, V.ninf => if 0 < a then V.ninf else if a < 0 then V.pinf else V.nan
  | V.pinf, V.fin b => if 0 < b then V.pinf else if b < 0 then V.ninf else V.nan
  | V.ninf, V.fin b => if 0 < b then V.ninf else if b < 0 then V.pinf else V.nan
  | V.pinf, V.pinf => V.pinf
  | V.pinf, V.ninf => V.ninf
  | V.ninf, V.pinf => V.ninf
  | V.ninf, V.ninf => V.pinf

/-- IEEE non-trapping division (`x/0` gives a signed infinity, `0/0` NaN). -/
def vdiv : V → V → V
  | V.nan, _ => V.nan
  | _, V.nan => V.nan
  | V.fin a, V.fin b =>
      if b = 0 then (if 0 < a then V.pinf else if a < 0 then V.ninf else V.nan)
      else V.fin (a / b)
  | V.fin _, V.pinf => V.fin 0
  | V.fin _, V.ninf => V.fin 0
  | V.pinf, V.fin b => if b < 0 then V.ninf else V.pinf
  | V.ninf, V.fin b => if b < 0 then V.pinf else V.ninf
  | V.pinf, V.pinf => V.nan
  | V.pinf, V.ninf => V.nan
  | V.ninf, V.pinf => V.nan
  | V.ninf, V.ninf => V.nan

/-- 3x3 rational matrix (row index first). -/
abbrev Mat3 : Type := Fin 3 → Fin 3 → ℚ

/-- 4x3 rational matrix: the stacked coordinates of a tet's four vertices. -/
abbrev Mat43 : Type := Fin 4 → Fin 3 → ℚ

/-- 3x4 rational matrix: the shape of the constant gradient operator `G`. -/
abbrev Mat34 : Type := Fin 3 → Fin 4 → ℚ

/-- 3x3 matrix over IEEE-style scalars (used for the `J_inv` intermediate). -/
abbrev VMat3 : Type := Fin 3 → Fin 3 → V

/-- Matrix trace of a 3x3 rational matrix. -/
def trace3 (A : Mat3) : ℚ := A 0 0 + A 1 1 + A 2 2

/-- Transpose of a 3x3 rational matrix. -/
def transpose3 (A : Mat3) : Mat3 := fun i j => A j i

/-- Product of two 3x3 rational matrices. -/
def matmul3 (A B : Mat3) : Mat3 :=
  fun i j => A i 0 * B 0 j + A i 1 * B 1 j + A i 2 * B 2 j

/-- Product of the 3x4 gradient operator with a 4x3 vertex matrix. -/
def mul34x43 (G : Mat34) (P : Mat43) : Mat3 :=
  fun i j => G i 0 * P 0 j + G i 1 * P 1 j + G i 2 * P 2 j + G i 3 * P 3 j

/-- Determinant of a 3x3 rational matrix (`numpy.linalg.det`, idealized). -/
def det3 (A : Mat3) : ℚ :=
  A 0 0 * (A 1 1 * A 2 2 - A 1 2 * A 2 1)
    - A 0 1 * (A 1 0 * A 2 2 - A 1 2 * A 2 0)
    + A 0 2 * (A 1 0 * A 2 1 - A 1 1 * A 2 0)

/-- Matrix inverse of a 3x3 rational matrix via the cyclic cofactor formula
(`numpy.linalg.inv`, idealized; meaningful when `det3 A` is nonzero). -/
def inv3 (A : Mat3) : Mat3 :=
  fun i j =>
    (A (j + 1) (i + 1) * A (j + 2) (i + 2)
      - A (j + 1) (i + 2) * A (j + 2) (i + 1)) / det3 A

/-- Transpose of a 3x3 matrix over `V`. -/
def vtranspose3 (A : VMat3) : VMat3 := fun i j => A j i

/-- Product of two 3x3 matrices over `V`, with IEEE arithmetic. -/
def vmatmul3 (A B : VMat3) : VMat3 :=
  fun i j => vadd (vadd (vmul (A i 0) (B 0 j)) (vmul (A i 1) (B 1 j))) (vmul (A i 2) (B 2 j))

/-- Trace of a 3x3 matrix over `V`, with IEEE arithmetic. -/
def vtrace3 (A : VMat3) : V := vadd (vadd (A 0 0) (A 1 1)) (A 2 2)

/-- The tetrahedral mesh together with the per-voxel geometric primitives the
external Geometry Provider supplies (vertex coordinates, voxel index lists,
raw signed orientations, inradius, circumradius, the six dihedral angles,
radius-edge ratio and edge ratio). -/
structure Mesh where
  vertices : List (Fin 3 → ℚ)
  vertexPerVoxel : ℕ
  voxels : List (List ℕ)
  rawOrientations : List ℚ
  voxelInradius : List ℚ
  voxelCircumradius : List ℚ
  voxelDihedralAngles : List (List ℚ)
  voxelRadiusEdgeRatio : List ℚ
  voxelEdgeRatio : List ℚ

/-- The zero coordinate vector (out-of-range default, never hit on meshes
satisfying the data-model invariant). -/
def zeroVec : Fin 3 → ℚ := fun _ => 0

/-- `mesh.vertices[tet]`: the 4x3 matrix of one tet's vertex coordinates. -/
def vertsOf (m : Mesh) (tet : List ℕ) : Mat43 :=
  fun k j => (m.vertices.getD (tet.getD k.val 0) zeroVec) j

/-- Per-mesh attribute store (the Attribute Sink): named arrays of scalars. -/
abbrev AttrStore : Type := List (String × List V)

/-- `mesh.get_attribute`: lookup by name, `none` when absent. -/
def getAttr (s : AttrStore) (n : String) : Option (List V) :=
  match s with
  | [] => none
  | p :: rest => if p.1 = n then some p.2 else getAttr rest n

/-- `mesh.set_attribute`: overwrite (or append) the named array. -/
def setAttr (s : AttrStore) (n : String) (v : List V) : AttrStore :=
  match s with
  | [] => [(n, v)]
  | p :: rest => if p.1 = n then (n, v) :: rest else p :: setAttr rest n v

/-- The arrays the Geometry Provider materializes for pymesh's predefined
voxel attributes; user-defined attribute names have no default. -/
def attrDefault (m : Mesh) (n : String) : Option (List V) :=
  if n = "voxel_inradius" then some (m.voxelInradius.map V.fin)
  else if n = "voxel_circumradius" then some (m.voxelCircumradius.map V.fin)
  else if n = "voxel_dihedral_angle" then some (m.voxelDihedralAngles.flatten.map V.fin)
  else if n = "voxel_radius_edge_ratio" then some (m.voxelRadiusEdgeRatio.map V.fin)
  else if n = "voxel_edge_ratio" then some (m.voxelEdgeRatio.map V.fin)
  else none

/-- `mesh.add_attribute`: register the name if absent; predefined geometric
attributes are filled by the Geometry Provider, others start empty. -/
def addAttribute (m : Mesh) (s : AttrStore) (n : String) : AttrStore :=
  if (getAttr s n).isSome then s
  else
    match attrDefault m n with
    | some v => setAttr s n v
    | none => setAttr s n []

/-- `np.full((3,3), np.inf)`: the all-(+inf) 3x3 sentinel matrix. -/
def allInf3 : VMat3 := fun _ _ => V.pinf

/-- The `invert_J` lambda of the source: the all-(+inf) 3x3 sentinel when the
paired determinant is exactly zero, otherwise the ordinary matrix inverse. -/
def invert_J (p : Mat3 × ℚ) : VMat3 :=
  if p.2 = 0 then allInf3 else fun i j => V.fin (inv3 p.1 i j)

/-- Sign quantization applied in place to the raw orientation array:
positive values become 1, negative values become -1, zero is left in place. -/
def quantizeSign (r : ℚ) : ℚ := if 0 < r then 1 else if r < 0 then -1 else r

/-- Everything `compute_distortion_energies` produces: the five computed
arrays, the warning messages logged, and the updated attribute store. -/
structure DistortionResult where
  conformal_amips : List V
  finite_conformal_amips : List Bool
  symmetric_dirichlet : List V
  finite_symmetric_dirichlet : List Bool
  orientations : List ℚ
  warnings : List String
  store : AttrStore
deriving Repr

/-- `compute_distortion_energies(mesh)`, shallowly embedded.  `G` is the
constant gradient operator assembled from the regular reference tetrahedron
and `cbrt` stands for `np.cbrt`, both supplied by external libraries. -/
def compute_distortion_energies (G : Mat34) (cbrt : ℚ → ℚ) (m : Mesh)
    (store : AttrStore) : Except String DistortionResult :=
  if 0 < m.voxels.length ∧ m.vertexPerVoxel ≠ 4 then
    Except.error "Only tet mesh is supported for distortion computation"
  else
    let Js := m.voxels.map (fun tet => mul34x43 G (vertsOf m tet))
    let J_F := Js.map (fun J => trace3 (matmul3 (transpose3 J) J))
    let J_det := Js.map (fun J => det3 J)
    let J_inv := (Js.zip J_det).map invert_J
    let J_inv_F := J_inv.map (fun Ji => vtrace3 (vmatmul3 (vtranspose3 Ji) Ji))
    let conformal_amips :=
      (J_F.zip J_det).map (fun p => vdiv (V.fin p.1) (V.fin (cbrt (p.2 * p.2))))
    let finite_conformal_amips := conformal_amips.map isfiniteV
    let symmetric_dirichlet := (J_F.zip J_inv_F).map (fun p => vadd (V.fin p.1) p.2)
    let finite_symmetric_dirichlet := symmetric_dirichlet.map isfiniteV
    let orientations := m.rawOrientations.map quantizeSign
    let num_degenerate_tets := (orientations.filter (fun o => o = 0)).length
    let num_inverted_tets := (orientations.filter (fun o => o < 0)).length
    let num_nonfinite_amips := (finite_conformal_amips.filter (fun b => !b)).length
    let num_nonfinite_dirichlet := (finite_symmetric_dirichlet.filter (fun b => !b)).length
    let warnings :=
      (if 0 < num_degenerate_tets then ["degenerate tets: " ++ toString num_degenerate_tets] else [])
      ++ (if 0 < num_inverted_tets then ["inverted tets: " ++ toString num_inverted_tets] else [])
      ++ (if 0 < num_nonfinite_amips then
            ["Non-finite conformal AMIPS: " ++ toString num_nonfinite_amips] else [])
      ++ (if 0 < num_nonfinite_dirichlet then
            ["Non-finite symmetric Dirichlet: " ++ toString num_nonfinite_dirichlet] else [])
    let s1 := setAttr (addAttribute m store "conformal_AMIPS") "conformal_AMIPS" conformal_amips
    let s2 := setAttr (addAttribute m s1 "finite_conformal_AMIPS") "finite_conformal_AMIPS"
      (finite_conformal_amips.map (fun b => V.fin (if b then 1 else 0)))
    let s3 := setAttr (addAttribute m s2 "symmetric_Dirichlet") "symmetric_Dirichlet"
      symmetric_dirichlet
    let s4 := setAttr (addAttribute m s3 "finite_symmetric_Dirichlet") "finite_symmetric_Dirichlet"
      (finite_symmetric_dirichlet.map (fun b => V.fin (if b then 1 else 0)))
    let s5 := setAttr (addAttribute m s4 "orientations") "orientations"
      (orientations.map V.fin)
    Except.ok
      { conformal_amips := conformal_amips
        finite_conformal_amips := finite_conformal_amips
        symmetric_dirichlet := symmetric_dirichlet
        finite_symmetric_dirichlet := finite_symmetric_dirichlet
        orientations := orientations
        warnings := warnings
        store := s5 }

/-- `np.amin` along the per-tet axis of the dihedral-angle table. -/
def aminList : List ℚ → ℚ
  | [] => 0
  | h :: t => t.foldl min h

/-- `np.amax` along the per-tet axis of the dihedral-angle table. -/
def amaxList : List ℚ → ℚ
  | [] => 0
  | h :: t => t.foldl max h

/-- Everything `compute_tet_quality_measures` produces: the computed arrays
and the updated attribute store. -/
structure QualityResult where
  radiusRatio : List V
  minDihedral : List ℚ
  maxDihedral : List ℚ
  store : AttrStore
deriving Repr

/-- `compute_tet_quality_measures(mesh)`, shallowly embedded. -/
def compute_tet_quality_measures (m : Mesh) (store : AttrStore) : QualityResult :=
  let s1 := addAttribute m store "voxel_inradius"
  let s2 := addAttribute m s1 "voxel_circumradius"
  let inradius := m.voxelInradius
  let circumradius := m.voxelCircumradius
  let rr := (inradius.zip circumradius).map (fun p => vdiv (V.fin p.1) (V.fin p.2))
  let s3 := setAttr (addAttribute m s2 "radius_ratio") "radius_ratio" rr
  let s4 := addAttribute m s3 "voxel_dihedral_angle"
  let dihedral := m.voxelDihedralAngles
  let minD := if m.voxels.length = 0 then [] else dihedral.map aminList
  let maxD := if m.voxels.length = 0 then [] else dihedral.map amaxList
  let s5 := setAttr (addAttribute m s4 "voxel_min_dihedral_angle")
    "voxel_min_dihedral_angle" (minD.map V.fin)
  let s6 := setAttr (addAttribute m s5 "voxel_max_dihedral_angle")
    "voxel_max_dihedral_angle" (maxD.map V.fin)
  let s7 := addAttribute m s6 "voxel_radius_edge_ratio"
  let s8 := addAttribute m s7 "voxel_edge_ratio"
  { radiusRatio := rr, minDihedral := minD, maxDihedral := maxD, store := s8 }

/-- A CSV cell: a column-name string, the integer index, or a scalar value. -/
inductive Cell where
  | str : String → Cell
  | idx : ℕ → Cell
  | val : V → Cell
deriving DecidableEq, Repr

/-- The header row `output_to_csv` writes first. -/
def headerRow : List Cell :=
  [Cell.str "index", Cell.str "edge_ratio", Cell.str "radius_ratio",
   Cell.str "min_dihedral_angle", Cell.str "max_dihedral_angle",
   Cell.str "radius_edge_ratio", Cell.str "conformal_amips",
   Cell.str "symmetric_dirichlet", Cell.str "orientation"]

/-- The entries of the attribute columns at one index, left to right; `none`
as soon as some array is too short (numpy raises `IndexError` there). -/
def colsAt (i : ℕ) : List (List V) → Option (List V)
  | [] => some []
  | c :: rest =>
      match c.get? i, colsAt i rest with
      | some v, some vs => some (v :: vs)
      | _, _ => none

/-- One data row of the table: the 0-based tet index followed by the eight
attribute values at that index; `none` when some array is too short. -/
def dataRow (i : ℕ) (cols : List (List V)) : Option (List Cell) :=
  (colsAt i cols).map (fun vs => Cell.idx i :: vs.map Cell.val)

/-- The data-row loop of `output_to_csv`: rows actually written, in order,
paired with the error (if any) that interrupted the loop. -/
def writeLoop (cols : List (List V)) : List ℕ → List (List Cell) × Option String
  | [] => ([], none)
  | i :: rest =>
      match dataRow i cols with
      | none => ([], some "IndexError")
      | some row =>
          let r := writeLoop cols rest
          (row :: r.1, r.2)

/-- The names `output_to_csv` reads from the attribute store, in source order. -/
def requiredAttrs : List String :=
  ["voxel_edge_ratio", "radius_ratio", "voxel_min_dihedral_angle",
   "voxel_max_dihedral_angle", "voxel_radius_edge_ratio", "conformal_AMIPS",
   "symmetric_Dirichlet", "orientations"]

/-- `output_to_csv(mesh, csv_file)`, shallowly embedded.  The first component
is the list of rows written to the file, in order; the second is the error
(if any) that aborted the export after those rows were already written.  The
header row is written before any attribute is looked up, exactly as in the
source, so a missing attribute leaves the header behind. -/
def output_to_csv (m : Mesh) (store : AttrStore) : List (List Cell) × Option String :=
  let written := [headerRow]
  match getAttr store "voxel_edge_ratio" with
  | none => (written, some "MissingAttribute: voxel_edge_ratio")
  | some edgeRatioCol =>
  match getAttr store "radius_ratio" with
  | none => (written, some "MissingAttribute: radius_ratio")
  | some radiusRatioCol =>
  match getAttr store "voxel_min_dihedral_angle" with
  | none => (written, some "MissingAttribute: voxel_min_dihedral_angle")
  | some minDihedralCol =>
  match getAttr store "voxel_max_dihedral_angle" with
  | none => (written, some "MissingAttribute: voxel_max_dihedral_angle")
  | some maxDihedralCol =>
  match getAttr store "voxel_radius_edge_ratio" with
  | none => (written, some "MissingAttribute: voxel_radius_edge_ratio")
  | some reRatioCol =>
  match getAttr store "conformal_AMIPS" with
  | none => (written, some "MissingAttribute: conformal_AMIPS")
  | some amipsCol =>
  match getAttr store "symmetric_Dirichlet" with
  | none => (written, some "MissingAttribute: symmetric_Dirichlet")
  | some dirichletCol =>
  match getAttr store "orientations" with
  | none => (written, some "MissingAttribute: orientations")
  | some orientationCol =>
  let cols := [edgeRatioCol, radiusRatioCol, minDihedralCol, maxDihedralCol,
    reRatioCol, amipsCol, dirichletCol, orientationCol]
  let r := writeLoop cols (List.range m.voxels.length)
  (headerRow :: r.1, r.2)

/-- The five per-tet formula steps of the spec, as standalone definitions:
the deformation gradient `J = G . V_t`. -/
def defGrad (G : Mat34) (m : Mesh) (tet : List ℕ) : Mat3 :=
  mul34x43 G (vertsOf m tet)

/-- Squared Frobenius norm `J_F = trace(J^T . J)`. -/
def jFrob (J : Mat3) : ℚ := trace3 (matmul3 (transpose3 J) J)

/-- Squared Frobenius norm of a matrix over `V` (used on `J_inv`). -/
def vFrob (A : VMat3) : V := vtrace3 (vmatmul3 (vtranspose3 A) A)

/-- The spec's conformal AMIPS formula `J_F / cbrt(det_J^2)` for one tet. -/
def amipsOf (cbrt : ℚ → ℚ) (J : Mat3) : V :=
  vdiv (V.fin (jFrob J)) (V.fin (cbrt (det3 J * det3 J)))

/-- The spec's symmetric Dirichlet formula `J_F + J_inv_F` for one tet. -/
def dirichletOf (J : Mat3) : V :=
  vadd (V.fin (jFrob J)) (vFrob (invert_J (J, det3 J)))

/-- The valid values of the `--log` option: `argparse` `choices` rejects any
other invocation before `main` runs. -/
def logChoices : List String := ["DEBUG", "INFO", "WARNING", "ERROR", "CRITICAL"]

/-- The integer logging levels the `logging` module exposes as attributes
(`getattr(logging, name, None)`). -/
def loggingLevels : List (String × Int) :=
  [("NOTSET", 0), ("DEBUG", 10), ("INFO", 20), ("WARNING", 30), ("WARN", 30),
   ("ERROR", 40), ("CRITICAL", 50), ("FATAL", 50)]

/-- `getattr(logging, s, None)`: the named level when it exists, else `None`
(no non-integer attribute is reachable through the parser's choices). -/
def loggingGetattr (s : String) : Option Int :=
  match loggingLevels.find? (fun p => p.1 = s) with
  | some p => some p.2
  | none => none

/-- Parsed command-line arguments of the script. -/
structure Args where
  log : String
  csvPath : Option String
  input_mesh : String
  output_mesh : String
deriving Repr, DecidableEq

/-- `parse_args`, shallowly embedded: `--log` defaults to WARNING and is
restricted by `choices` to `logChoices`; parsing fails (argparse exits)
on any other value. -/
def parse_args (logOpt : Option String) (csvOpt : Option String)
    (im om : String) : Option Args :=
  match logOpt with
  | none => some { log := "WARNING", csvPath := csvOpt, input_mesh := im, output_mesh := om }
  | some s =>
      if s ∈ logChoices then
        some { log := s, csvPath := csvOpt, input_mesh := im, output_mesh := om }
      else none

/-- The branch condition of `main`'s invalid-verbosity check: taken when
`getattr(logging, args.log, None)` is not an integer. -/
def mainLogBranchTaken (a : Args) : Bool := !(loggingGetattr a.log).isSome

/-- The local and module-level names in scope inside `main` at the
invalid-verbosity branch (`args`, `mesh`, `numeric_level` are bound locally;
the rest are module globals of the script). -/
def mainScopeNames : List String :=
  ["argparse", "pymesh", "np", "numpy", "logging", "csv", "parse_args",
   "compute_distortion_energies", "compute_tet_quality_measures",
   "output_to_csv", "main", "args", "mesh", "numeric_level"]

/-- What evaluating `raise ValueError('Invalid log level: %s' % loglevel)`
actually raises: building the message reads the name `loglevel`, so if that
name is not in scope the lookup itself raises `NameError` and the intended
`ValueError` is never constructed. -/
def invalidLevelBranchRaises : String :=
  if "loglevel" ∈ mainScopeNames then "ValueError" else "NameError"

/-- The per-tet deformation gradients `Js` of the evaluator, as a function of
the mesh (stage view of the list pipeline). -/
def JsOf (G : Mat34) (m : Mesh) : List Mat3 :=
  m.voxels.map (fun tet => mul34x43 G (vertsOf m tet))

/-- The `J_F` stage of the evaluator. -/
def jFList (G : Mat34) (m : Mesh) : List ℚ :=
  (JsOf G m).map (fun J => trace3 (matmul3 (transpose3 J) J))

/-- The `J_det` stage of the evaluator. -/
def jDetList (G : Mat34) (m : Mesh) : List ℚ := (JsOf G m).map (fun J => det3 J)

/-- The `J_inv_F` stage of the evaluator. -/
def jInvFList (G : Mat34) (m : Mesh) : List V :=
  (((JsOf G m).zip (jDetList G m)).map invert_J).map
    (fun Ji => vtrace3 (vmatmul3 (vtranspose3 Ji) Ji))

/-- The `conformal_amips` stage of the evaluator. -/
def amipsList (G : Mat34) (cbrt : ℚ → ℚ) (m : Mesh) : List V :=
  ((jFList G m).zip (jDetList G m)).map
    (fun p => vdiv (V.fin p.1) (V.fin (cbrt (p.2 * p.2))))

/-- The `finite_conformal_amips` stage of the evaluator. -/
def finiteAmipsList (G : Mat34) (cbrt : ℚ → ℚ) (m : Mesh) : List Bool :=
  (amipsList G cbrt m).map isfiniteV

/-- The `symmetric_dirichlet` stage of the evaluator. -/
def dirichletList (G : Mat34) (m : Mesh) : List V :=
  ((jFList G m).zip (jInvFList G m)).map (fun p => vadd (V.fin p.1) p.2)

/-- The `finite_symmetric_dirichlet` stage of the evaluator. -/
def finiteDirichletList (G : Mat34) (m : Mesh) : List Bool :=
  (dirichletList G m).map isfiniteV

/-- The quantized orientations stage of the evaluator. -/
def orientList (m : Mesh) : List ℚ := m.rawOrientations.map quantizeSign

/-- One diagnostic block: the warning message carrying the count, emitted only
when the count is positive. -/
def warnOf (msg : String) (n : ℕ) : List String :=
  if 0 < n then [msg ++ toString n] else []

/-- Number of tets reported degenerate (quantized orientation zero). -/
def degenerateCount (r : DistortionResult) : ℕ :=
  (r.orientations.filter (fun o => o = 0)).length

/-- Number of tets reported inverted (quantized orientation negative). -/
def invertedCount (r : DistortionResult) : ℕ :=
  (r.orientations.filter (fun o => o < 0)).length

/-- Number of tets with a non-finite conformal AMIPS value. -/
def nonfiniteAmipsCount (r : DistortionResult) : ℕ :=
  (r.finite_conformal_amips.filter (fun b => !b)).length

/-- Number of tets with a non-finite symmetric Dirichlet value. -/
def nonfiniteDirichletCount (r : DistortionResult) : ℕ :=
  (r.finite_symmetric_dirichlet.filter (fun b => !b)).length

/-- The warning list of the evaluator, as a function of the mesh. -/
def warnList (G : Mat34) (cbrt : ℚ → ℚ) (m : Mesh) : List String :=
  warnOf "degenerate tets: " ((orientList m).filter (fun o => o = 0)).length
  ++ warnOf "inverted tets: " ((orientList m).filter (fun o => o < 0)).length
  ++ warnOf "Non-finite conformal AMIPS: "
      ((finiteAmipsList G cbrt m).filter (fun b => !b)).length
  ++ warnOf "Non-finite symmetric Dirichlet: "
      ((finiteDirichletList G m).filter (fun b => !b)).length

/-- The attribute store after the evaluator's five add/set pairs. -/
def cdeStore (G : Mat34) (cbrt : ℚ → ℚ) (m : Mesh) (store : AttrStore) : AttrStore :=
  let s1 := setAttr (addAttribute m store "conformal_AMIPS") "conformal_AMIPS"
    (amipsList G cbrt m)
  let s2 := setAttr (addAttribute m s1 "finite_conformal_AMIPS") "finite_conformal_AMIPS"
    ((finiteAmipsList G cbrt m).map (fun b => V.fin (if b then 1 else 0)))
  let s3 := setAttr (addAttribute m s2 "symmetric_Dirichlet") "symmetric_Dirichlet"
    (dirichletList G m)
  let s4 := setAttr (addAttribute m s3 "finite_symmetric_Dirichlet") "finite_symmetric_Dirichlet"
    ((finiteDirichletList G m).map (fun b => V.fin (if b then 1 else 0)))
  setAttr (addAttribute m s4 "orientations") "orientations" ((orientList m).map V.fin)

/-- The full record the evaluator returns on success. -/
def cdeResult (G : Mat34) (cbrt : ℚ → ℚ) (m : Mesh) (store : AttrStore) :
    DistortionResult :=
  { conformal_amips := amipsList G cbrt m
    finite_conformal_amips := finiteAmipsList G cbrt m
    symmetric_dirichlet := dirichletList G m
    finite_symmetric_dirichlet := finiteDirichletList G m
    orientations := orientList m
    warnings := warnList G cbrt m
    store := cdeStore G cbrt m store }

/-- A concrete gradient operator for the reference tetrahedron with vertices
at the origin and the three unit basis points (rows: d/dx, d/dy, d/dz). -/
def G0 : Mat34 := fun i j => if j.val = 0 then -1 else if j.val = i.val + 1 then 1 else 0

/-- First basis point. -/
def e1 : Fin 3 → ℚ := fun j => if j.val = 0 then 1 else 0

/-- Second basis point. -/
def e2 : Fin 3 → ℚ := fun j => if j.val = 1 then 1 else 0

/-- Third basis point. -/
def e3 : Fin 3 → ℚ := fun j => if j.val = 2 then 1 else 0

/-- A one-tet mesh (the unit tetrahedron) with its geometric primitives. -/
def tet0mesh : Mesh :=
  { vertices := [zeroVec, e1, e2, e3]
    vertexPerVoxel := 4
    voxels := [[0, 1, 2, 3]]
    rawOrientations := [1]
    voxelInradius := [1]
    voxelCircumradius := [2]
    voxelDihedralAngles := [[1, 2, 1, 1, 1, 1]]
    voxelRadiusEdgeRatio := [1]
    voxelEdgeRatio := [1] }

/-- The mesh with zero tetrahedra. -/
def emptyMesh : Mesh :=
  { vertices := []
    vertexPerVoxel := 4
    voxels := []
    rawOrientations := []
    voxelInradius := []
    voxelCircumradius := []
    voxelDihedralAngles := []
    voxelRadiusEdgeRatio := []
    voxelEdgeRatio := [] }

/-- The 3x3 identity matrix over the rationals. -/
def matId3 : Mat3 := fun i j => if i = j then 1 else 0

/-- A fully populated attribute store for one tetrahedron. -/
def demoStore : AttrStore :=
  [("voxel_edge_ratio", [V.fin 1]),
   ("radius_ratio", [V.fin (1 / 2)]),
   ("voxel_min_dihedral_angle", [V.fin 1]),
   ("voxel_max_dihedral_angle", [V.fin 2]),
   ("voxel_radius_edge_ratio", [V.fin 1]),
   ("conformal_AMIPS", [V.fin 3]),
   ("symmetric_Dirichlet", [V.fin 6]),
   ("orientations", [V.fin 1])]

/-! ### Helper lemmas -/

theorem cde_error (G : Mat34) (cbrt : ℚ → ℚ) (m : Mesh) (store : AttrStore)
    (h : 0 < m.voxels.length ∧ m.vertexPerVoxel ≠ 4) :
    compute_distortion_energies G cbrt m store =
      Except.error "Only tet mesh is supported for distortion computation" := by
  rw [compute_distortion_energies, if_pos h]

theorem cde_ok (G : Mat34) (cbrt : ℚ → ℚ) (m : Mesh) (store : AttrStore)
    (h : ¬(0 < m.voxels.length ∧ m.vertexPerVoxel ≠ 4)) :
    compute_distortion_energies G cbrt m store = Except.ok (cdeResult G cbrt m store) := by
  rw [compute_distortion_energies, if_neg h]
  rfl

theorem cde_ok_inv (G : Mat34) (cbrt : ℚ → ℚ) (m : Mesh) (store : AttrStore)
    (r : DistortionResult)
    (h : compute_distortion_energies G cbrt m store = Except.ok r) :
    r = cdeResult G cbrt m store ∧ ¬(0 < m.voxels.length ∧ m.vertexPerVoxel ≠ 4) := by
  by_cases hc : 0 < m.voxels.length ∧ m.vertexPerVoxel ≠ 4
  · rw [cde_error G cbrt m store hc] at h
    exact absurd h (by simp)
  · rw [cde_ok G cbrt m store hc] at h
    exact ⟨(Except.ok.inj h).symm, hc⟩

theorem zip_self_map {α γ : Type} (g : α → γ) (l : List α) :
    l.zip (l.map g) = l.map (fun a => (a, g a)) := by
  simpa using List.zip_map' id g l

theorem amipsList_eq (G : Mat34) (cbrt : ℚ → ℚ) (m : Mesh) :
    amipsList G cbrt m = (JsOf G m).map (fun J => amipsOf cbrt J) := by
  rw [amipsList, jFList, jDetList, List.zip_map', List.map_map]
  rfl

theorem jInvFList_eq (G : Mat34) (m : Mesh) :
    jInvFList G m = (JsOf G m).map (fun J => vFrob (invert_J (J, det3 J))) := by
  rw [jInvFList, jDetList, zip_self_map, List.map_map, List.map_map]
  rfl

theorem dirichletList_eq (G : Mat34) (m : Mesh) :
    dirichletList G m = (JsOf G m).map (fun J => dirichletOf J) := by
  rw [dirichletList, jFList, jInvFList_eq, List.zip_map', List.map_map]
  rfl

theorem getAttr_setAttr_self (s : AttrStore) (n : String) (v : List V) :
    getAttr (setAttr s n v) n = some v := by
  induction s with
  | nil => simp [setAttr, getAttr]
  | cons p rest ih =>
      by_cases hp : p.1 = n
      · simp [setAttr, getAttr, hp]
      · simp [setAttr, getAttr, hp, ih]

theorem getAttr_setAttr_ne (s : AttrStore) (n n2 : String) (v : List V) (h : n2 ≠ n) :
    getAttr (setAttr s n v) n2 = getAttr s n2 := by
  have hn : ¬(n = n2) := fun hh => h hh.symm
  induction s with
  | nil => simp [setAttr, getAttr, hn]
  | cons p rest ih =>
      by_cases hp : p.1 = n
      · simp [setAttr, getAttr, hp, hn]
      · simp [setAttr, getAttr, hp, ih]

theorem getAttr_addAttribute_ne (m : Mesh) (s : AttrStore) (n n2 : String) (h : n2 ≠ n) :
    getAttr (addAttribute m s n) n2 = getAttr s n2 := by
  by_cases hs : (getAttr s n).isSome
  · simp [addAttribute, hs]
  · cases hd : attrDefault m n <;>
      simp [addAttribute, hs, hd, getAttr_setAttr_ne _ _ _ _ h]

theorem foldl_min_le (l : List ℚ) : ∀ a : ℚ, l.foldl min a ≤ a := by
  induction l with
  | nil => intro a; simp
  | cons h t ih =>
      intro a
      calc t.foldl min (min a h) ≤ min a h := ih _
        _ ≤ a := min_le_left _ _

theorem foldl_min_le_mem (l : List ℚ) : ∀ (a x : ℚ), x ∈ l → l.foldl min a ≤ x := by
  induction l with
  | nil => intro a x hx; cases hx
  | cons h t ih =>
      intro a x hx
      rcases List.mem_cons.mp hx with rfl | hx
      · calc t.foldl min (min a x) ≤ min a x := foldl_min_le t _
          _ ≤ x := min_le_right _ _
      · exact ih _ x hx

theorem foldl_min_mem (l : List ℚ) : ∀ a : ℚ, l.foldl min a = a ∨ l.foldl min a ∈ l := by
  induction l with
  | nil => intro a; left; rfl
  | cons h t ih =>
      intro a
      rcases ih (min a h) with heq | hmem
      · rcases min_choice a h with hc | hc
        · left
          simpa [List.foldl_cons, hc] using heq
        · right
          simp only [List.foldl_cons]
          rw [heq, hc]
          exact List.mem_cons_self _ _
      · right
        exact List.mem_cons_of_mem _ hmem

theorem foldl_max_ge (l : List ℚ) : ∀ a : ℚ, a ≤ l.foldl max a := by
  induction l with
  | nil => intro a; simp
  | cons h t ih =>
      intro a
      calc a ≤ max a h := le_max_left _ _
        _ ≤ t.foldl max (max a h) := ih _

theorem foldl_max_ge_mem (l : List ℚ) : ∀ (a x : ℚ), x ∈ l → x ≤ l.foldl max a := by
  induction l with
  | nil => intro a x hx; cases hx
  | cons h t ih =>
      intro a x hx
      rcases List.mem_cons.mp hx with rfl | hx
      · calc x ≤ max a x := le_max_right _ _
          _ ≤ t.foldl max (max a x) := foldl_max_ge t _
      · exact ih _ x hx

theorem foldl_max_mem (l : List ℚ) : ∀ a : ℚ, l.foldl max a = a ∨ l.foldl max a ∈ l := by
  induction l with
  | nil => intro a; left; rfl
  | cons h t ih =>
      intro a
      rcases ih (max a h) with heq | hmem
      · rcases max_choice a h with hc | hc
        · left
          simpa [List.foldl_cons, hc] using heq
        · right
          simp only [List.foldl_cons]
          rw [heq, hc]
          exact List.mem_cons_self _ _
      · right
        exact List.mem_cons_of_mem _ hmem

theorem aminList_spec (l : List ℚ) (h : l ≠ []) :
    aminList l ∈ l ∧ ∀ x ∈ l, aminList l ≤ x := by
  cases l with
  | nil => exact absurd rfl h
  | cons a t =>
      constructor
      · rcases foldl_min_mem t a with heq | hmem
        · rw [aminList, heq]
          exact List.mem_cons_self _ _
        · exact List.mem_cons_of_mem _ hmem
      · intro x hx
        rcases List.mem_cons.mp hx with rfl | hx
        · exact foldl_min_le t x
        · exact foldl_min_le_mem t a x hx

theorem amaxList_spec (l : List ℚ) (h : l ≠ []) :
    amaxList l ∈ l ∧ ∀ x ∈ l, x ≤ amaxList l := by
  cases l with
  | nil => exact absurd rfl h
  | cons a t =>
      constructor
      · rcases foldl_max_mem t a with heq | hmem
        · rw [amaxList, heq]
          exact List.mem_cons_self _ _
        · exact List.mem_cons_of_mem _ hmem
      · intro x hx
        rcases List.mem_cons.mp hx with rfl | hx
        · exact foldl_max_ge t x
        · exact foldl_max_ge_mem t a x hx

theorem colsAt_isSome (i : ℕ) : ∀ cols : List (List V), (∀ c ∈ cols, i < c.length) →
    (colsAt i cols).isSome = true := by
  intro cols
  induction cols with
  | nil => intro _; rfl
  | cons col rest ih =>
      intro h
      have hlt : i < col.length := h col (List.mem_cons_self _ _)
      have hv : col[i]? = some (col.get ⟨i, hlt⟩) := List.getElem?_eq_getElem hlt
      obtain ⟨vs, hvs⟩ :=
        Option.isSome_iff_exists.mp (ih (fun d hd => h d (List.mem_cons_of_mem _ hd)))
      simp [colsAt, hv, hvs]

theorem writeLoop_spec (cols : List (List V)) :
    ∀ l : List ℕ, (∀ i ∈ l, (dataRow i cols).isSome = true) →
      (writeLoop cols l).2 = none ∧ (writeLoop cols l).1.length = l.length ∧
      ∀ k, (writeLoop cols l).1.get? k = (l.get? k).bind (fun i => dataRow i cols) := by
  intro l
  induction l with
  | nil =>
      intro _
      refine ⟨rfl, rfl, ?_⟩
      intro k
      simp [writeLoop]
  | cons i rest ih =>
      intro h
      have hi : (dataRow i cols).isSome := h i (List.mem_cons_self _ _)
      obtain ⟨row, hrow⟩ := Option.isSome_iff_exists.mp hi
      have hrest := ih (fun j hj => h j (List.mem_cons_of_mem _ hj))
      simp only [writeLoop, hrow]
      refine ⟨hrest.1, by simp [hrest.2.1], ?_⟩
      intro k
      cases k with
      | zero => simp [hrow]
      | succ k => simpa using hrest.2.2 k

/-! ### Claims -/

/-- Claim C1: for every tetrahedron i, after the Distortion Energy Evaluator
runs, the stored flag `finite_conformal_AMIPS[i]` equals
`isfinite(conformal_AMIPS[i])`, and `finite_symmetric_Dirichlet[i]` equals
`isfinite(symmetric_Dirichlet[i])`; the flag and the value never disagree. -/
theorem claim_C1_flags_agree (G : Mat34) (cbrt : ℚ → ℚ) (m : Mesh)
    (store : AttrStore) (r : DistortionResult)
    (h : compute_distortion_energies G cbrt m store = Except.ok r) (i : ℕ) :
    r.finite_conformal_amips.get? i = (r.conformal_amips.get? i).map isfiniteV ∧
    r.finite_symmetric_dirichlet.get? i = (r.symmetric_dirichlet.get? i).map isfiniteV := by
  obtain ⟨rfl, -⟩ := cde_ok_inv G cbrt m store r h
  constructor <;> simp [cdeResult, finiteAmipsList, finiteDirichletList, List.get?_map]

theorem claim_C1_witness :
    (cdeResult G0 id tet0mesh []).finite_conformal_amips.get? 0 =
      ((cdeResult G0 id tet0mesh []).conformal_amips.get? 0).map isfiniteV ∧
    (cdeResult G0 id tet0mesh []).finite_symmetric_dirichlet.get? 0 =
      ((cdeResult G0 id tet0mesh []).symmetric_dirichlet.get? 0).map isfiniteV :=
  claim_C1_flags_agree G0 id tet0mesh [] (cdeResult G0 id tet0mesh [])
    (cde_ok G0 id tet0mesh [] (by decide)) 0

/-- Claim C2: every stored orientation is exactly one of -1, 0, +1, for any
raw signed value from the Geometry Provider, and it is 0 iff the raw signed
orientation value is exactly zero. -/
theorem claim_C2_orientation_quantized (G : Mat34) (cbrt : ℚ → ℚ) (m : Mesh)
    (store : AttrStore) (r : DistortionResult)
    (h : compute_distortion_energies G cbrt m store = Except.ok r)
    (i : ℕ) (q : ℚ) (hq : m.rawOrientations.get? i = some q) :
    r.orientations.get? i = some (quantizeSign q) ∧
    (quantizeSign q = 1 ∨ quantizeSign q = 0 ∨ quantizeSign q = -1) ∧
    (quantizeSign q = 0 ↔ q = 0) := by
  obtain ⟨rfl, -⟩ := cde_ok_inv G cbrt m store r h
  have horient : (orientList m).get? i = some (quantizeSign q) := by
    rw [orientList, List.get?_map, hq]
    rfl
  refine ⟨horient, ?_, ?_⟩
  · rcases lt_trichotomy q 0 with hlt | heq | hgt
    · right; right; simp [quantizeSign, hlt, lt_asymm hlt]
    · right; left; simp [quantizeSign, heq]
    · left; simp [quantizeSign, hgt]
  · constructor
    · intro h0
      by_contra hq0
      rcases lt_trichotomy q 0 with hlt | heq | hgt
      · rw [quantizeSign, if_neg (lt_asymm hlt), if_pos hlt] at h0
        norm_num at h0
      · exact hq0 heq
      · rw [quantizeSign, if_pos hgt] at h0
        norm_num at h0
    · intro h0
      simp [quantizeSign, h0]

theorem claim_C2_witness :
    (cdeResult G0 id tet0mesh []).orientations.get? 0 = some (quantizeSign 1) ∧
    (quantizeSign 1 = 1 ∨ quantizeSign 1 = 0 ∨ quantizeSign 1 = -1) ∧
    (quantizeSign 1 = 0 ↔ (1 : ℚ) = 0) :=
  claim_C2_orientation_quantized G0 id tet0mesh [] (cdeResult G0 id tet0mesh [])
    (cde_ok G0 id tet0mesh [] (by decide)) 0 1 rfl

/-- Claim C3: the intermediate `J_inv` is the all-entries-(+inf) 3x3 matrix
iff the paired determinant is exactly zero (no epsilon tolerance), and is the
ordinary matrix inverse for any nonzero determinant, however small. -/
theorem claim_C3_jinv_sentinel (J : Mat3) (d : ℚ) :
    (invert_J (J, d) = allInf3 ↔ d = 0) ∧
    (d ≠ 0 → invert_J (J, d) = fun i j => V.fin (inv3 J i j)) := by
  have hinv : ∀ hd : ¬d = 0, invert_J (J, d) = fun i j => V.fin (inv3 J i j) := by
    intro hd
    simp [invert_J, hd]
  constructor
  · constructor
    · intro hEq
      by_contra hd
      rw [hinv hd] at hEq
      have h00 := congrFun (congrFun hEq 0) 0
      simp [allInf3] at h00
    · intro hd
      simp [invert_J, hd]
  · exact hinv

theorem claim_C3_witness :
    invert_J (matId3, (1 : ℚ)) = fun i j => V.fin (inv3 matId3 i j) :=
  (claim_C3_jinv_sentinel matId3 1).2 (by norm_num)

/-- Claim C4: for every tetrahedron the evaluator computes `J = G . V_t`,
`J_F = trace(J^T . J)`, `conformal_AMIPS = J_F / cbrt(det_J^2)` and
`symmetric_Dirichlet = J_F + J_inv_F`, with division by zero and non-finite
operands not trapped: the evaluation always succeeds (no exception), the
results merely taking +inf or NaN values where IEEE arithmetic produces them. -/
theorem claim_C4_formulas (G : Mat34) (cbrt : ℚ → ℚ) (m : Mesh) (store : AttrStore)
    (hpre : ¬(0 < m.voxels.length ∧ m.vertexPerVoxel ≠ 4)) :
    ∃ r, compute_distortion_energies G cbrt m store = Except.ok r ∧
      ∀ i tet, m.voxels.get? i = some tet →
        r.conformal_amips.get? i = some (amipsOf cbrt (defGrad G m tet)) ∧
        r.symmetric_dirichlet.get? i = some (dirichletOf (defGrad G m tet)) := by
  refine ⟨cdeResult G cbrt m store, cde_ok G cbrt m store hpre, ?_⟩
  intro i tet htet
  constructor
  · show (amipsList G cbrt m).get? i = _
    rw [amipsList_eq, JsOf, List.map_map, List.get?_map, htet]
    rfl
  · show (dirichletList G m).get? i = _
    rw [dirichletList_eq, JsOf, List.map_map, List.get?_map, htet]
    rfl

theorem claim_C4_witness :
    ∃ r, compute_distortion_energies G0 id tet0mesh [] = Except.ok r ∧
      ∀ i tet, tet0mesh.voxels.get? i = some tet →
        r.conformal_amips.get? i = some (amipsOf id (defGrad G0 tet0mesh tet)) ∧
        r.symmetric_dirichlet.get? i = some (dirichletOf (defGrad G0 tet0mesh tet)) :=
  claim_C4_formulas G0 id tet0mesh [] (by decide)

/-- Claim C5: the Distortion Energy Evaluator fails with the
unsupported-element error iff the mesh has at least one voxel and its elements
do not have exactly 4 vertices; a mesh with zero tetrahedra passes the
precondition and produces empty output arrays without error. -/
theorem claim_C5_precondition (G : Mat34) (cbrt : ℚ → ℚ) (m : Mesh) (store : AttrStore) :
    ((∃ e, compute_distortion_energies G cbrt m store = Except.error e) ↔
      (0 < m.voxels.length ∧ m.vertexPerVoxel ≠ 4)) ∧
    (m.voxels = [] → m.rawOrientations = [] →
      ∃ r, compute_distortion_energies G cbrt m store = Except.ok r ∧
        r.conformal_amips = [] ∧ r.finite_conformal_amips = [] ∧
        r.symmetric_dirichlet = [] ∧ r.finite_symmetric_dirichlet = [] ∧
        r.orientations = []) := by
  constructor
  · constructor
    · rintro ⟨e, he⟩
      by_contra hc
      rw [cde_ok G cbrt m store hc] at he
      exact Except.noConfusion he
    · intro hc
      exact ⟨_, cde_error G cbrt m store hc⟩
  · intro hvox horient
    have hc : ¬(0 < m.voxels.length ∧ m.vertexPerVoxel ≠ 4) := by simp [hvox]
    refine ⟨cdeResult G cbrt m store, cde_ok G cbrt m store hc, ?_, ?_, ?_, ?_, ?_⟩ <;>
      simp [cdeResult, amipsList, finiteAmipsList, dirichletList, finiteDirichletList,
        orientList, jFList, jDetList, jInvFList, JsOf, hvox, horient]

theorem claim_C5_witness :
    ∃ r, compute_distortion_energies G0 id emptyMesh [] = Except.ok r ∧
      r.conformal_amips = [] ∧ r.finite_conformal_amips = [] ∧
      r.symmetric_dirichlet = [] ∧ r.finite_symmetric_dirichlet = [] ∧
      r.orientations = [] :=
  (claim_C5_precondition G0 id emptyMesh []).2 rfl rfl

/-- Claim C6: the Shape Quality Evaluator computes radius_ratio as the
untrapped elementwise division inradius/circumradius (division by zero yields
an infinity or NaN, no exception), and the per-tet min/max over the dihedral
angles; for a mesh with zero tetrahedra the min/max dihedral outputs are both
empty arrays, not an error and not a default scalar. -/
theorem claim_C6_quality (m : Mesh) (store : AttrStore) :
    (compute_tet_quality_measures m store).radiusRatio =
      (m.voxelInradius.zip m.voxelCircumradius).map
        (fun p => vdiv (V.fin p.1) (V.fin p.2)) ∧
    (∀ a : ℚ, vdiv (V.fin a) (V.fin 0) =
      if 0 < a then V.pinf else if a < 0 then V.ninf else V.nan) ∧
    (m.voxels.length ≠ 0 →
      ∀ i angles, m.voxelDihedralAngles.get? i = some angles → angles ≠ [] →
        (compute_tet_quality_measures m store).minDihedral.get? i = some (aminList angles) ∧
        (compute_tet_quality_measures m store).maxDihedral.get? i = some (amaxList angles) ∧
        aminList angles ∈ angles ∧ (∀ x ∈ angles, aminList angles ≤ x) ∧
        amaxList angles ∈ angles ∧ (∀ x ∈ angles, x ≤ amaxList angles)) ∧
    (m.voxels.length = 0 →
      (compute_tet_quality_measures m store).minDihedral = [] ∧
      (compute_tet_quality_measures m store).maxDihedral = []) := by
  refine ⟨rfl, ?_, ?_, ?_⟩
  · intro a
    simp [vdiv]
  · intro hne i angles hangles hne2
    have hmin : (compute_tet_quality_measures m store).minDihedral =
        m.voxelDihedralAngles.map aminList := by
      simp [compute_tet_quality_measures, hne]
    have hmax : (compute_tet_quality_measures m store).maxDihedral =
        m.voxelDihedralAngles.map amaxList := by
      simp [compute_tet_quality_measures, hne]
    refine ⟨?_, ?_, (aminList_spec angles hne2).1, (aminList_spec angles hne2).2,
      (amaxList_spec angles hne2).1, (amaxList_spec angles hne2).2⟩
    · rw [hmin, List.get?_map, hangles]
      rfl
    · rw [hmax, List.get?_map, hangles]
      rfl
  · intro hz
    constructor <;> simp [compute_tet_quality_measures, hz]

theorem claim_C6_witness :
    (compute_tet_quality_measures tet0mesh []).minDihedral.get? 0 =
      some (aminList [1, 2, 1, 1, 1, 1]) ∧
    (compute_tet_quality_measures tet0mesh []).maxDihedral.get? 0 =
      some (amaxList [1, 2, 1, 1, 1, 1]) ∧
    aminList [1, 2, 1, 1, 1, 1] ∈ ([1, 2, 1, 1, 1, 1] : List ℚ) ∧
    (∀ x ∈ ([1, 2, 1, 1, 1, 1] : List ℚ), aminList [1, 2, 1, 1, 1, 1] ≤ x) ∧
    amaxList [1, 2, 1, 1, 1, 1] ∈ ([1, 2, 1, 1, 1, 1] : List ℚ) ∧
    (∀ x ∈ ([1, 2, 1, 1, 1, 1] : List ℚ), x ≤ amaxList [1, 2, 1, 1, 1, 1]) :=
  (claim_C6_quality tet0mesh []).2.2.1 (by decide) 0 [1, 2, 1, 1, 1, 1] rfl (by decide)

/-- Claim C9: each of the four diagnostic warnings (degenerate orientation,
inverted orientation, non-finite AMIPS, non-finite Dirichlet) is logged iff
its count is positive; computation proceeds regardless (all five attributes
are still written); for a mesh with zero tetrahedra no warning is logged. -/
theorem claim_C9_diagnostics (G : Mat34) (cbrt : ℚ → ℚ) (m : Mesh)
    (store : AttrStore) (r : DistortionResult)
    (h : compute_distortion_energies G cbrt m store = Except.ok r) :
    r.warnings =
      warnOf "degenerate tets: " (degenerateCount r) ++
      warnOf "inverted tets: " (invertedCount r) ++
      warnOf "Non-finite conformal AMIPS: " (nonfiniteAmipsCount r) ++
      warnOf "Non-finite symmetric Dirichlet: " (nonfiniteDirichletCount r) ∧
    (∀ msg n, warnOf msg n ≠ [] ↔ 0 < n) ∧
    (m.voxels = [] → m.rawOrientations = [] → r.warnings = []) ∧
    (∀ n2 ∈ ["conformal_AMIPS", "finite_conformal_AMIPS", "symmetric_Dirichlet",
             "finite_symmetric_Dirichlet", "orientations"],
      (getAttr r.store n2).isSome = true) := by
  obtain ⟨rfl, -⟩ := cde_ok_inv G cbrt m store r h
  refine ⟨rfl, ?_, ?_, ?_⟩
  · intro msg n
    by_cases hn : 0 < n
    · simp [warnOf, hn]
    · simp [warnOf, hn]
  · intro hvox horient
    show warnList G cbrt m = []
    simp [warnList, warnOf, orientList, finiteAmipsList, amipsList, jFList, jDetList,
      JsOf, dirichletList, jInvFList, finiteDirichletList, hvox, horient]
  · intro n2 hn2
    show (getAttr (cdeStore G cbrt m store) n2).isSome = true
    fin_cases hn2
    · simp only [cdeStore]
      rw [getAttr_setAttr_ne _ _ _ _ (by decide), getAttr_addAttribute_ne _ _ _ _ (by decide),
        getAttr_setAttr_ne _ _ _ _ (by decide), getAttr_addAttribute_ne _ _ _ _ (by decide),
        getAttr_setAttr_ne _ _ _ _ (by decide), getAttr_addAttribute_ne _ _ _ _ (by decide),
        getAttr_setAttr_ne _ _ _ _ (by decide), getAttr_addAttribute_ne _ _ _ _ (by decide),
        getAttr_setAttr_self]
      rfl
    · simp only [cdeStore]
      rw [getAttr_setAttr_ne _ _ _ _ (by decide), getAttr_addAttribute_ne _ _ _ _ (by decide),
        getAttr_setAttr_ne _ _ _ _ (by decide), getAttr_addAttribute_ne _ _ _ _ (by decide),
        getAttr_setAttr_ne _ _ _ _ (by decide), getAttr_addAttribute_ne _ _ _ _ (by decide),
        getAttr_setAttr_self]
      rfl
    · simp only [cdeStore]
      rw [getAttr_setAttr_ne _ _ _ _ (by decide), getAttr_addAttribute_ne _ _ _ _ (by decide),
        getAttr_setAttr_ne _ _ _ _ (by decide), getAttr_addAttribute_ne _ _ _ _ (by decide),
        getAttr_setAttr_self]
      rfl
    · simp only [cdeStore]
      rw [getAttr_setAttr_ne _ _ _ _ (by decide), getAttr_addAttribute_ne _ _ _ _ (by decide),
        getAttr_setAttr_self]
      rfl
    · simp only [cdeStore]
      rw [getAttr_setAttr_self]
      rfl

theorem claim_C9_witness :
    (cdeResult G0 id tet0mesh []).warnings =
      warnOf "degenerate tets: " (degenerateCount (cdeResult G0 id tet0mesh [])) ++
      warnOf "inverted tets: " (invertedCount (cdeResult G0 id tet0mesh [])) ++
      warnOf "Non-finite conformal AMIPS: "
        (nonfiniteAmipsCount (cdeResult G0 id tet0mesh [])) ++
      warnOf "Non-finite symmetric Dirichlet: "
        (nonfiniteDirichletCount (cdeResult G0 id tet0mesh [])) ∧
    (∀ msg n, warnOf msg n ≠ [] ↔ 0 < n) ∧
    (tet0mesh.voxels = [] → tet0mesh.rawOrientations = [] →
      (cdeResult G0 id tet0mesh []).warnings = []) ∧
    (∀ n2 ∈ ["conformal_AMIPS", "finite_conformal_AMIPS", "symmetric_Dirichlet",
             "finite_symmetric_Dirichlet", "orientations"],
      (getAttr (cdeResult G0 id tet0mesh []).store n2).isSome = true) :=
  claim_C9_diagnostics G0 id tet0mesh [] (cdeResult G0 id tet0mesh [])
    (cde_ok G0 id tet0mesh [] (by decide))

/-- Claim C7: for a mesh with N tetrahedra whose required attributes are all
present (with the per-tet array lengths of the data model), the Tabular
Exporter writes exactly one header row with the 9 column names in order,
followed by exactly N data rows whose index column is the 0-based mesh order
0..N-1 and whose remaining columns are the stored attribute values, with no
recomputation or filtering. -/
theorem claim_C7_export (m : Mesh) (store : AttrStore)
    (eC rC mnC mxC reC amC diC orC : List V)
    (h1 : getAttr store "voxel_edge_ratio" = some eC)
    (h2 : getAttr store "radius_ratio" = some rC)
    (h3 : getAttr store "voxel_min_dihedral_angle" = some mnC)
    (h4 : getAttr store "voxel_max_dihedral_angle" = some mxC)
    (h5 : getAttr store "voxel_radius_edge_ratio" = some reC)
    (h6 : getAttr store "conformal_AMIPS" = some amC)
    (h7 : getAttr store "symmetric_Dirichlet" = some diC)
    (h8 : getAttr store "orientations" = some orC)
    (l1 : eC.length = m.voxels.length) (l2 : rC.length = m.voxels.length)
    (l3 : mnC.length = m.voxels.length) (l4 : mxC.length = m.voxels.length)
    (l5 : reC.length = m.voxels.length) (l6 : amC.length = m.voxels.length)
    (l7 : diC.length = m.voxels.length) (l8 : orC.length = m.voxels.length) :
    (output_to_csv m store).2 = none ∧
    (output_to_csv m store).1.length = m.voxels.length + 1 ∧
    (output_to_csv m store).1.get? 0 = some headerRow ∧
    (∀ i v1 v2 v3 v4 v5 v6 v7 v8,
      eC.get? i = some v1 → rC.get? i = some v2 → mnC.get? i = some v3 →
      mxC.get? i = some v4 → reC.get? i = some v5 → amC.get? i = some v6 →
      diC.get? i = some v7 → orC.get? i = some v8 →
      (output_to_csv m store).1.get? (i + 1) =
        some [Cell.idx i, Cell.val v1, Cell.val v2, Cell.val v3, Cell.val v4,
              Cell.val v5, Cell.val v6, Cell.val v7, Cell.val v8]) := by
  have hout : output_to_csv m store =
      (headerRow ::
        (writeLoop [eC, rC, mnC, mxC, reC, amC, diC, orC] (List.range m.voxels.length)).1,
       (writeLoop [eC, rC, mnC, mxC, reC, amC, diC, orC] (List.range m.voxels.length)).2) := by
    simp only [output_to_csv, h1, h2, h3, h4, h5, h6, h7, h8]
  have hlen : ∀ cl ∈ [eC, rC, mnC, mxC, reC, amC, diC, orC], cl.length = m.voxels.length := by
    intro cl hcl
    simp only [List.mem_cons, List.not_mem_nil, or_false] at hcl
    rcases hcl with rfl | rfl | rfl | rfl | rfl | rfl | rfl | rfl <;> assumption
  have hWL := writeLoop_spec [eC, rC, mnC, mxC, reC, amC, diC, orC]
    (List.range m.voxels.length)
    (by
      intro i hi
      have hiN : i < m.voxels.length := List.mem_range.mp hi
      have hsome := colsAt_isSome i [eC, rC, mnC, mxC, reC, amC, diC, orC]
        (fun cl hcl => by rw [hlen cl hcl]; exact hiN)
      obtain ⟨vs, hvs⟩ := Option.isSome_iff_exists.mp hsome
      simp [dataRow, hvs])
  refine ⟨?_, ?_, ?_, ?_⟩
  · rw [hout]
    exact hWL.1
  · rw [hout]
    simp [hWL.2.1]
  · rw [hout]
    rfl
  · intro i v1 v2 v3 v4 v5 v6 v7 v8 hv1 hv2 hv3 hv4 hv5 hv6 hv7 hv8
    have hiN : i < m.voxels.length := by
      have := (List.get?_eq_some.mp hv1).1
      rw [l1] at this
      exact this
    rw [hout]
    have hrow : dataRow i [eC, rC, mnC, mxC, reC, amC, diC, orC] =
        some [Cell.idx i, Cell.val v1, Cell.val v2, Cell.val v3, Cell.val v4,
              Cell.val v5, Cell.val v6, Cell.val v7, Cell.val v8] := by
      rw [List.get?_eq_getElem?] at hv1 hv2 hv3 hv4 hv5 hv6 hv7 hv8
      simp [dataRow, colsAt, hv1, hv2, hv3, hv4, hv5, hv6, hv7, hv8]
    calc (headerRow ::
          (writeLoop [eC, rC, mnC, mxC, reC, amC, diC, orC]
            (List.range m.voxels.length)).1).get? (i + 1)
        = (writeLoop [eC, rC, mnC, mxC, reC, amC, diC, orC]
            (List.range m.voxels.length)).1.get? i := rfl
      _ = ((List.range m.voxels.length).get? i).bind
            (fun j => dataRow j [eC, rC, mnC, mxC, reC, amC, diC, orC]) := hWL.2.2 i
      _ = some [Cell.idx i, Cell.val v1, Cell.val v2, Cell.val v3, Cell.val v4,
              Cell.val v5, Cell.val v6, Cell.val v7, Cell.val v8] := by
            rw [List.get?_range hiN]
            simpa using hrow

theorem claim_C7_witness :
    (output_to_csv tet0mesh demoStore).2 = none ∧
    (output_to_csv tet0mesh demoStore).1.length = tet0mesh.voxels.length + 1 ∧
    (output_to_csv tet0mesh demoStore).1.get? 0 = some headerRow ∧
    (∀ i v1 v2 v3 v4 v5 v6 v7 v8,
      ([V.fin 1] : List V).get? i = some v1 → ([V.fin (1 / 2)] : List V).get? i = some v2 →
      ([V.fin 1] : List V).get? i = some v3 → ([V.fin 2] : List V).get? i = some v4 →
      ([V.fin 1] : List V).get? i = some v5 → ([V.fin 3] : List V).get? i = some v6 →
      ([V.fin 6] : List V).get? i = some v7 → ([V.fin 1] : List V).get? i = some v8 →
      (output_to_csv tet0mesh demoStore).1.get? (i + 1) =
        some [Cell.idx i, Cell.val v1, Cell.val v2, Cell.val v3, Cell.val v4,
              Cell.val v5, Cell.val v6, Cell.val v7, Cell.val v8]) :=
  claim_C7_export tet0mesh demoStore [V.fin 1] [V.fin (1 / 2)] [V.fin 1] [V.fin 2]
    [V.fin 1] [V.fin 3] [V.fin 6] [V.fin 1]
    rfl rfl rfl rfl rfl rfl rfl rfl rfl rfl rfl rfl rfl rfl rfl rfl

/-- Claim C8 counterexample: with every required attribute missing (empty
store), the export does fail, yet the written output is NOT empty — the header
row was already written to the file before the failing attribute lookup, so
partial output exists, contradicting the claim as stated. -/
theorem claim_C8_counterexample :
    (output_to_csv tet0mesh []).2.isSome = true ∧
    (output_to_csv tet0mesh []).1 ≠ [] := by
  constructor
  · rfl
  · simp [output_to_csv, getAttr]

/-- Claim C8 (amended): if any required attribute is missing at export time,
the Tabular Exporter fails with a missing-attribute error and writes no data
row, but the header row has already been written to the table file before the
failure — the file is left containing exactly the header. -/
theorem claim_C8_amended (m : Mesh) (store : AttrStore)
    (h : ∃ n ∈ requiredAttrs, getAttr store n = none) :
    ∃ e, output_to_csv m store = ([headerRow], some e) := by
  obtain ⟨n, hn, hnone⟩ := h
  simp only [requiredAttrs, List.mem_cons, List.not_mem_nil, or_false] at hn
  cases hg1 : getAttr store "voxel_edge_ratio" with
  | none => exact ⟨"MissingAttribute: voxel_edge_ratio", by simp [output_to_csv, hg1]⟩
  | some c1 =>
  cases hg2 : getAttr store "radius_ratio" with
  | none => exact ⟨"MissingAttribute: radius_ratio", by simp [output_to_csv, hg1, hg2]⟩
  | some c2 =>
  cases hg3 : getAttr store "voxel_min_dihedral_angle" with
  | none => exact ⟨"MissingAttribute: voxel_min_dihedral_angle", by simp [output_to_csv, hg1, hg2, hg3]⟩
  | some c3 =>
  cases hg4 : getAttr store "voxel_max_dihedral_angle" with
  | none => exact ⟨"MissingAttribute: voxel_max_dihedral_angle", by simp [output_to_csv, hg1, hg2, hg3, hg4]⟩
  | some c4 =>
  cases hg5 : getAttr store "voxel_radius_edge_ratio" with
  | none => exact ⟨"MissingAttribute: voxel_radius_edge_ratio", by simp [output_to_csv, hg1, hg2, hg3, hg4, hg5]⟩
  | some c5 =>
  cases hg6 : getAttr store "conformal_AMIPS" with
  | none => exact ⟨"MissingAttribute: conformal_AMIPS", by simp [output_to_csv, hg1, hg2, hg3, hg4, hg5, hg6]⟩
  | some c6 =>
  cases hg7 : getAttr store "symmetric_Dirichlet" with
  | none => exact ⟨"MissingAttribute: symmetric_Dirichlet", by simp [output_to_csv, hg1, hg2, hg3, hg4, hg5, hg6, hg7]⟩
  | some c7 =>
  cases hg8 : getAttr store "orientations" with
  | none => exact ⟨"MissingAttribute: orientations", by simp [output_to_csv, hg1, hg2, hg3, hg4, hg5, hg6, hg7, hg8]⟩
  | some c8 =>
      exfalso
      rcases hn with rfl | rfl | rfl | rfl | rfl | rfl | rfl | rfl <;> simp_all

theorem claim_C8_witness :
    ∃ e, output_to_csv tet0mesh [] = ([headerRow], some e) :=
  claim_C8_amended tet0mesh []
    ⟨"voxel_edge_ratio", by simp [requiredAttrs], rfl⟩

/-- Claim C10: the invalid-verbosity error branch in `main` is unreachable for
every invocation that passes argument parsing — `argparse` restricts `--log`
to five names, each resolving through `getattr(logging, ., None)` to an
integer — and, were the branch ever reached, the reference to the undefined
name `loglevel` in its message would raise `NameError` rather than the
intended `ValueError`. -/
theorem claim_C10_log_branch :
    (∀ lg cs im om a, parse_args lg cs im om = some a →
      mainLogBranchTaken a = false) ∧
    invalidLevelBranchRaises = "NameError" := by
  constructor
  · intro lg cs im om a h
    cases lg with
    | none =>
        rw [parse_args] at h
        injection h with h2
        subst h2
        rfl
    | some s =>
        rw [parse_args] at h
        by_cases hs : s ∈ logChoices
        · rw [if_pos hs] at h
          injection h with h2
          subst h2
          simp only [logChoices, List.mem_cons, List.not_mem_nil, or_false] at hs
          rcases hs with rfl | rfl | rfl | rfl | rfl <;> rfl
        · rw [if_neg hs] at h
          exact Option.noConfusion h
  · decide

theorem claim_C10_witness :
    mainLogBranchTaken
      { log := "DEBUG", csvPath := none, input_mesh := "in.msh",
        output_mesh := "out.msh" } = false ∧
    invalidLevelBranchRaises = "NameError" :=
  ⟨claim_C10_log_branch.1 (some "DEBUG") none "in.msh" "out.msh"
      { log := "DEBUG", csvPath := none, input_mesh := "in.msh",
        output_mesh := "out.msh" } (by decide),
   claim_C10_log_branch.2⟩
